import Mathlib

/-!
# Verification of the SvelteKit WebSocket endpoint controller

A shallow embedding of `src/lib/server/index.ts`: the close-status codes,
the pending-key authority, the rate limiter, the admission routine `add`,
the idle-timeout machinery, `broadcast`/`send`/`terminate`, the sockets-map
effects of every controller operation, `gracefulShutdown`, and the
process-wide route table.

JavaScript `Map`s are embedded as insertion-ordered association lists
(`List (String × α)`): `Map.prototype.get`/`has`/`set`/`delete` become
`jsGet`/`jsHas`/`jsSet`/`jsDelete`.  Clock reads (`Date.now()`) become
explicit `now : Nat` arguments; randomness (`randomBytes`, id generation)
becomes explicit `String` arguments; async callbacks are resolved to their
returned values.
-/

namespace SvelteKitWS

/-- `Map.prototype.get`: first entry with the given key, if any. -/
def jsGet (m : List (String × α)) (k : String) : Option α :=
  (m.find? (fun p => p.1 == k)).map (·.2)

/-- `Map.prototype.has`. -/
def jsHas (m : List (String × α)) (k : String) : Bool :=
  (m.find? (fun p => p.1 == k)).isSome

/-- `Map.prototype.set`: overwrite in place when the key exists, else append
(JS `Map` preserves insertion order). -/
def jsSet (m : List (String × α)) (k : String) (v : α) : List (String × α) :=
  if jsHas m k then m.map (fun p => if p.1 == k then (k, v) else p)
  else m ++ [(k, v)]

/-- `Map.prototype.delete`. -/
def jsDelete (m : List (String × α)) (k : String) : List (String × α) :=
  m.filter (fun p => p.1 != k)

/-! ## Close status codes (`enum WebSocketError`, src/lib/server/index.ts:65-72)

The TypeScript enum assigns a numeric close code to each rejection cause.
The internal-error code is the literal `1011` in `add`'s catch block
(index.ts:272). -/

namespace WebSocketError

def TOO_MANY_CONNECTIONS : Nat := 1013

def INVALID_KEY : Nat := 1008

def MISSING_PARAM : Nat := 1008

def AUTH_FAILED : Nat := 1008

def TIMEOUT : Nat := 1001

def RATE_LIMITED : Nat := 1013

end WebSocketError

/-- The literal close code used in `add`'s catch block (`ws.close(1011, ...)`). -/
def internalErrorCode : Nat := 1011

/-- The close codes of the seven rejection causes, in the spec's order:
too-many-connections, invalid/expired key, missing parameter, auth failure,
timeout, rate-limited, internal error. -/
def rejectionCodes : List Nat :=
  [WebSocketError.TOO_MANY_CONNECTIONS, WebSocketError.INVALID_KEY,
   WebSocketError.MISSING_PARAM, WebSocketError.AUTH_FAILED,
   WebSocketError.TIMEOUT, WebSocketError.RATE_LIMITED, internalErrorCode]

/-! ## Pending-key authority (index.ts:170-195) -/

/-- `interface PendingKey` (index.ts:58-62). -/
structure PendingKey where
  key : String
  createdAt : Nat
  expiresAt : Nat
deriving DecidableEq

/-- The controller's `pendingKeys : Map<string, PendingKey>`. -/
abbrev PendingKeyMap := List (String × PendingKey)

/-- The expiry duration used by `generatePendingConnectionKey`:
`this.config.pendingKeyExpiration || 2 * 60 * 1000` — JS `||`, so an absent
or zero configuration falls back to the 120000 ms default. -/
def pendingKeyDuration (pendingKeyExpiration : Option Nat) : Nat :=
  match pendingKeyExpiration with
  | some n => if n = 0 then 2 * 60 * 1000 else n
  | none => 2 * 60 * 1000

/-- `generatePendingConnectionKey` (index.ts:170-182).  The random token
`key` and the generated map id `id` are passed in explicitly (the source
draws them from `randomBytes`); `now` is the `Date.now()` reading.  Returns
the updated map; the source returns the token itself to the caller. -/
def generatePendingConnectionKey (m : PendingKeyMap) (id key : String)
    (now : Nat) (pendingKeyExpiration : Option Nat) : PendingKeyMap :=
  jsSet m id { key := key, createdAt := now,
               expiresAt := now + pendingKeyDuration pendingKeyExpiration }

/-- The scan loop of `validateConnectionKey` (index.ts:188-193): find the
first entry whose stored token equals `providedKey` and whose expiry has not
passed (`Date.now() <= pendingKey.expiresAt`); delete it and succeed,
otherwise fail leaving the map unchanged. -/
def validateScan (now : Nat) (providedKey : String) :
    PendingKeyMap → Bool × PendingKeyMap
  | [] => (false, [])
  | (id, pk) :: rest =>
    if pk.key = providedKey ∧ now ≤ pk.expiresAt then (true, rest)
    else
      let r := validateScan now providedKey rest
      (r.1, (id, pk) :: r.2)

/-- `validateConnectionKey` (index.ts:184-195): an empty token fails
immediately (`if (!providedKey) return false`), otherwise scan. -/
def validateConnectionKey (now : Nat) (providedKey : String)
    (m : PendingKeyMap) : Bool × PendingKeyMap :=
  if providedKey = "" then (false, m) else validateScan now providedKey m

/-! ## Rate limiter (index.ts:139-161) -/

/-- One value of `rateLimitMap : Map<string, {count, resetTime}>`. -/
structure RateLimitEntry where
  count : Nat
  resetTime : Nat
deriving DecidableEq

/-- The `rateLimit` configuration option: `max` plus `window` (ms). -/
structure RateLimitCfg where
  max : Nat
  window : Nat
deriving DecidableEq

/-- The controller's `rateLimitMap`. -/
abbrev RateLimitMap := List (String × RateLimitEntry)

/-- Result of one `checkRateLimit` call: whether the request is allowed,
whether a `rateLimit` event was emitted, and the updated map. -/
structure RateLimitResult where
  allowed : Bool
  emitted : Bool
  map : RateLimitMap
deriving DecidableEq

/-- `checkRateLimit` (index.ts:139-161).  `clientId` is the value of
`getClientId(req)` (ip + user-agent), `now` the `Date.now()` reading.
No configured `rateLimit` allows everything; a missing or elapsed entry is
replaced by a fresh window with count 1 and allowed; an entry already at
`max` denies and emits the `rateLimit` event without touching the map;
otherwise the count is incremented and the request allowed. -/
def checkRateLimit (rateLimit : Option RateLimitCfg) (clientId : String)
    (now : Nat) (m : RateLimitMap) : RateLimitResult :=
  match rateLimit with
  | none => ⟨true, false, m⟩
  | some rl =>
    match jsGet m clientId with
    | none => ⟨true, false, jsSet m clientId ⟨1, now + rl.window⟩⟩
    | some e =>
      if e.resetTime < now then
        ⟨true, false, jsSet m clientId ⟨1, now + rl.window⟩⟩
      else if rl.max ≤ e.count then ⟨false, true, m⟩
      else ⟨true, false, jsSet m clientId ⟨e.count + 1, e.resetTime⟩⟩

/-- Run a sequence of `checkRateLimit` calls for one client, collecting the
per-request `(allowed, emitted)` pairs and the final map. -/
def runRateLimit (rateLimit : Option RateLimitCfg) (clientId : String) :
    List Nat → RateLimitMap → List (Bool × Bool) × RateLimitMap
  | [], m => ([], m)
  | t :: ts, m =>
    let r := checkRateLimit rateLimit clientId t m
    let rest := runRateLimit rateLimit clientId ts r.map
    ((r.allowed, r.emitted) :: rest.1, rest.2)

/-- The expected `(allowed, emitted)` outcomes of `n` further requests
inside a live window, entering with the stored count at `k` (capped at
`max`): the request is allowed while the count stays below `max`, and a
denial emits the `rateLimit` event. -/
def windowResults (max : Nat) : Nat → Nat → List (Bool × Bool)
  | _, 0 => []
  | k, n + 1 =>
    (decide (k < max), decide (max ≤ k)) :: windowResults max (k + 1) n

/-! ## Configuration and the admission routine `add` (index.ts:197-274) -/

/-- `WebSocketEndpointConfig` (index.ts:497-508), restricted to the fields
`add` reads.  `useConnectionKeys` is the value after the constructor's
default (`true` when the option was left undefined, index.ts:119).
`limit = some 0` models a configured limit of `0`, which the JS truthiness
test `this.config?.limit && ...` skips. -/
structure WSConfig where
  limit : Option Nat
  useConnectionKeys : Bool
  pendingKeyExpiration : Option Nat
  requiredParams : Option (List String)
  timeout : Option Nat
  rateLimit : Option RateLimitCfg
deriving DecidableEq

/-- The capacity test of index.ts:206:
`this.config?.limit && this.sockets.size >= this.config.limit`. -/
def atCapacity (limit : Option Nat) (size : Nat) : Bool :=
  match limit with
  | none => false
  | some l => l != 0 && l ≤ size

/-- `URLSearchParams.prototype.get`: first value bound to the name. -/
def paramsGet (ps : List (String × String)) (k : String) : Option String :=
  (ps.find? (fun p => p.1 == k)).map (·.2)

/-- `URLSearchParams.prototype.has`. -/
def paramsHas (ps : List (String × String)) (k : String) : Bool :=
  (ps.find? (fun p => p.1 == k)).isSome

/-- The required-parameters loop of index.ts:224-229: the first entry of
`requiredParams` missing from the query, if any. -/
def firstMissing (ps : List (String × String)) : List String → Option String
  | [] => none
  | p :: rest => if paramsHas ps p then firstMissing ps rest else some p

/-- An incoming upgrade request as `add` consumes it: the derived client
identity (`getClientId`) and the parsed query parameters. -/
structure Request where
  clientId : String
  params : List (String × String)
deriving DecidableEq

/-- The key-validation step of `add` (index.ts:214-220): when
`useConnectionKeys` is set, validate `params.get('key') || ''` against the
pending-key map (consuming it on success); otherwise pass with the map
untouched. -/
def keyCheckResult (cfg : WSConfig) (req : Request) (now : Nat)
    (pk : PendingKeyMap) : Bool × PendingKeyMap :=
  if cfg.useConnectionKeys then
    validateConnectionKey now ((paramsGet req.params "key").getD "") pk
  else (true, pk)

/-- The required-parameters step of `add` (index.ts:223-230): with
`requiredParams` configured, the first listed parameter absent from the
query, if any; with it undefined the loop is skipped. -/
def missingParam (cfg : WSConfig) (req : Request) : Option String :=
  match cfg.requiredParams with
  | some rp => firstMissing req.params rp
  | none => none

/-- Outcome of `add`: either `ws.close(code, reason)` followed by `return`,
or successful registration. -/
inductive AddResult where
  | rejected (code : Nat) (reason : String)
  | admitted
deriving DecidableEq

/-- The controller state `add` touches: the registered socket refs (keys of
`sockets`, in insertion order), the pending keys and the rate-limit map. -/
structure CtrlState where
  sockets : List String
  pendingKeys : PendingKeyMap
  rateLimitMap : RateLimitMap
deriving DecidableEq

/-- `add` (index.ts:197-274), on the non-throwing path.  The checks run in
source order — rate limit, capacity, connection key, required parameters,
`authHandler` — and the first failure closes with its code and reason and
returns.  `auth` is the resolved result of `await this.authHandler(req)`
(default `() => true` when no handler is configured); `wsRef` is `ws.ref`.
Note that the rate-limit map is updated even when a later check fails, and
a validated key is consumed even when the parameter or auth check then
rejects, exactly as in the source. -/
def add (cfg : WSConfig) (auth : Bool) (wsRef : String) (req : Request)
    (now : Nat) (st : CtrlState) : AddResult × CtrlState :=
  let rl := checkRateLimit cfg.rateLimit req.clientId now st.rateLimitMap
  let st1 : CtrlState := { st with rateLimitMap := rl.map }
  if !rl.allowed then
    (.rejected WebSocketError.RATE_LIMITED "Rate limit exceeded", st1)
  else if atCapacity cfg.limit st1.sockets.length then
    (.rejected WebSocketError.TOO_MANY_CONNECTIONS "Too many connections", st1)
  else
    let kv := keyCheckResult cfg req now st1.pendingKeys
    let st2 : CtrlState := { st1 with pendingKeys := kv.2 }
    if !kv.1 then
      (.rejected WebSocketError.INVALID_KEY "Invalid or expired connection key",
       st2)
    else
      match missingParam cfg req with
      | some p =>
        (.rejected WebSocketError.MISSING_PARAM
           ("Missing required parameter: " ++ p), st2)
      | none =>
        if !auth then
          (.rejected WebSocketError.AUTH_FAILED "Authentication failed", st2)
        else (.admitted, { st2 with sockets := st2.sockets ++ [wsRef] })

/-! ## Idle-timeout machinery (index.ts:276-295)

Per-socket timer bookkeeping.  `pending` is the set of timer ids scheduled
by `setTimeout` and not yet fired or cancelled; `current` is the handle
stored in `ws.timeoutTimer` (which the source does not clear when the timer
fires, so it can go stale); `next` supplies fresh timer ids. -/

structure TimerState where
  pending : List Nat
  current : Option Nat
  next : Nat
deriving DecidableEq

/-- The timer state of a socket before `setupSocketTimeout` ever ran:
no pending timer, `ws.timeoutTimer` undefined. -/
def initTimerState : TimerState := ⟨[], none, 0⟩

/-- `setupSocketTimeout` (index.ts:276-290).  `hasTimeout` is the truthiness
of `this.config.timeout` (the guard `if (!this.config.timeout) return`).
An existing `ws.timeoutTimer` is cancelled with `clearTimeout` before the
new timer is scheduled and stored. -/
def setupSocketTimeout (hasTimeout : Bool) (st : TimerState) : TimerState :=
  if !hasTimeout then st
  else
    let cleared :=
      match st.current with
      | some t => st.pending.erase t
      | none => st.pending
    { pending := cleared ++ [st.next], current := some st.next,
      next := st.next + 1 }

/-- The events that touch a socket's timer state.  `setup` covers the
initial arming on admission (index.ts:244), every activity signal — the
`message`/`ping`/`pong` handlers call `resetSocketTimeout`, which calls
`setupSocketTimeout` (index.ts:262-267, 292-295) — and the public
`resetTimeout` (index.ts:437-442).  `fire` is the scheduled timer running
out; `close` is the close handler's `clearTimeout` plus
`ws.timeoutTimer = undefined` (index.ts:250-253). -/
inductive TimerOp where
  | setup
  | fire
  | close
deriving DecidableEq

/-- One timer event. -/
def stepTimer (hasTimeout : Bool) : TimerOp → TimerState → TimerState
  | .setup, st => setupSocketTimeout hasTimeout st
  | .fire, st =>
    match st.current with
    | some t => { st with pending := st.pending.erase t }
    | none => st
  | .close, st =>
    match st.current with
    | some t => { st with pending := st.pending.erase t, current := none }
    | none => st

/-- Run a sequence of timer events. -/
def runTimer (hasTimeout : Bool) : List TimerOp → TimerState → TimerState
  | [], st => st
  | op :: ops, st => runTimer hasTimeout ops (stepTimer hasTimeout op st)

/-! ## `broadcast` (index.ts:302-338) -/

/-- A connection as `broadcast` sees it after the optional `filter` has
selected it: whether `readyState === WebSocket.OPEN`, and — for open
sockets — the error its `socket.send` callback reports, if any. -/
structure BSocket where
  isOpen : Bool
  sendErr : Option String
deriving DecidableEq

/-- What `broadcast` did: per selected socket, whether `socket.send` was
attempted; and the argument of each invocation of the completion callback,
in order. -/
structure BroadcastOutcome where
  attempted : List Bool
  cbCalls : List (List String)
deriving DecidableEq

/-- The `for (const socket of sockets)` loop of index.ts:322-337, under the
schedule in which each send's completion callback resolves before the next
iteration.  `total` is `sockets.length` computed up front; `completed` and
`errors` are the closure variables; the callback fires whenever
`completed === total`. -/
def broadcastLoop (total : Nat) :
    List BSocket → Nat → List String → BroadcastOutcome
  | [], _, _ => ⟨[], []⟩
  | s :: rest, completed, errors =>
    let errors' :=
      if s.isOpen then
        match s.sendErr with
        | some e => errors ++ [e]
        | none => errors
      else errors
    let completed' := completed + 1
    let callsHere : List (List String) :=
      if completed' = total then [errors'] else []
    let r := broadcastLoop total rest completed' errors'
    ⟨s.isOpen :: r.attempted, callsHere ++ r.cbCalls⟩

/-- `broadcast` (index.ts:302-338) over the already-selected sockets, with a
completion callback supplied.  Zero selected sockets short-circuits to
`cb([])` (index.ts:317-320). -/
def broadcast (sockets : List BSocket) : BroadcastOutcome :=
  if sockets.length = 0 then ⟨[], [[]]⟩
  else broadcastLoop sockets.length sockets 0 []

/-- The genuine send errors among the open sockets, in socket order. -/
def openErrors (sockets : List BSocket) : List String :=
  sockets.filterMap (fun s => if s.isOpen then s.sendErr else none)

/-! ## `send` and `terminate` (index.ts:341-367, 444-463) -/

/-- `ws` readyState constant `WebSocket.OPEN`. -/
def WebSocket_OPEN : Nat := 1

/-- A registered socket as `send`/`terminate(ref)` see it: its
`readyState`, and — when the transport `socket.send` is reached — whether
that call throws synchronously (`some` message) or succeeds. -/
structure SendSocket where
  readyState : Nat
  sendThrows : Option String
deriving DecidableEq

/-- `send(ref, data, options, cb)` (index.ts:341-367).  Returns the boolean
result together with the error the callback was invoked with, if any.  By
construction it never throws: an unknown ref, a non-open socket and a
synchronously-throwing transport send all surface as `(false, some error)`
through the callback (the `try`/`catch` of index.ts:360-366). -/
def send (m : List (String × SendSocket)) (ref : String) :
    Bool × Option String :=
  match jsGet m ref with
  | none => (false, some ("Socket not found: " ++ ref))
  | some s =>
    if s.readyState != WebSocket_OPEN then
      (false, some ("Socket not ready: " ++ toString s.readyState))
    else
      match s.sendThrows with
      | some e => (false, some e)
      | none => (true, none)

/-- `terminate(ref)` with a ref supplied (index.ts:455-462): an unknown ref
throws `Error` synchronously (`throw new Error(...)`); a known ref clears
the socket's timer and calls `socket.terminate()`. -/
def terminateRef (m : List (String × SendSocket)) (ref : String) :
    Except String Unit :=
  match jsGet m ref with
  | none => .error ("Socket not found: " ++ ref)
  | some _ => .ok ()

/-! ## Effects of the controller's operations on the `sockets` map

Each public operation of `WebSocketEndpointController`, together with the
internal close handler, summarised by its direct effect on the `sockets`
map (keys only; refs are unique).  `gracefulShutdown` and `terminate(ref)`
call `socket.close`/`socket.terminate()` on socket objects but do not touch
the map themselves — removal then happens through the observed `close`
event, i.e. a later `closeHandler` step.  `terminate()` without a ref and
`destroy()` call `this.sockets.clear()` directly (index.ts:452, 476). -/

inductive CtrlOp where
  | add (ref : String)
  | closeHandler (ref : String) (code : Nat) (reason : String)
  | send (ref : String)
  | broadcast
  | resetTimeout (ref : String)
  | getConnectionsInfo
  | gracefulShutdown
  | terminateOne (ref : String)
  | terminateAll
  | destroy
deriving DecidableEq

/-- The direct effect of each operation on the keys of `sockets`. -/
def socketsEffect : CtrlOp → List String → List String
  | .add r, m => m ++ [r]
  | .closeHandler r _ _, m => m.filter (fun x => x != r)
  | .send _, m => m
  | .broadcast, m => m
  | .resetTimeout _, m => m
  | .getConnectionsInfo, m => m
  | .gracefulShutdown, m => m
  | .terminateOne _, m => m
  | .terminateAll, _ => []
  | .destroy, _ => []

/-- The event the close handler emits (index.ts:254):
`this.emit('disconnect', ws, code, reason.toString())`; every other
operation emits no disconnect event. -/
def disconnectEvent : CtrlOp → Option (String × Nat × String)
  | .closeHandler r code reason => some (r, code, reason)
  | _ => none

/-! ## `gracefulShutdown` (index.ts:393-435)

A timed model.  Each snapshotted socket is described by whether its
`readyState` is OPEN at the snapshot and by the time (from the start of the
shutdown) at which its transport `close` event fires: for an open socket,
the acknowledgement of the requested `close(1001, ...)`, `none` if it never
acknowledges; for a non-open socket, the completion of an already-underway
close (a CLOSING socket), `none` for a socket whose `close` event already
fired (a CLOSED one, which never re-emits it).

The loop of index.ts:421-428 attaches `once('close', closeHandler)` to
every snapshotted socket and additionally invokes `closeHandler()`
synchronously (time 0) for the non-open ones, so a CLOSING socket is
counted twice: once at time 0 and once when its `close` event fires.  The
promise resolves the first time `closedCount` reaches `sockets.length`, or
at the forced-termination timer (index.ts:411-418), whichever is first. -/

structure ShutSocket where
  isOpen : Bool
  ackAt : Option Nat
deriving DecidableEq

/-- The times at which one snapshotted socket increments `closedCount`: an
open socket counts once when its `close` event fires (never, if it never
acknowledges); a non-open socket counts synchronously at time 0 and — for
a CLOSING socket — again when its pending `close` event fires. -/
def countTimes (s : ShutSocket) : List Nat :=
  if s.isOpen then
    match s.ackAt with
    | some a => [a]
    | none => []
  else
    match s.ackAt with
    | some a => [0, a]
    | none => [0]

/-- All `closedCount` increments of the snapshot. -/
def shutdownCountTimes : List ShutSocket → List Nat
  | [] => []
  | s :: rest => countTimes s ++ shutdownCountTimes rest

/-- The largest element of a list of times (0 for the empty list). -/
def listMax (l : List Nat) : Nat := l.foldr max 0

/-- The smallest element of a list of times, if any. -/
def listMin : List Nat → Option Nat
  | [] => none
  | a :: rest =>
    match listMin rest with
    | none => some a
    | some b => some (min a b)

/-- The earliest instant by which at least `n` of the counting events have
fired — the moment `closedCount` reaches `n` — or `none` if it never
does. -/
def threshold (times : List Nat) (n : Nat) : Option Nat :=
  listMin (times.filter (fun t => n ≤ times.countP (fun a => a ≤ t)))

/-- The instant a snapshotted socket's transport actually finishes
closing: an open socket at its acknowledgement (never, if none), a CLOSING
socket at its pending `close` event, an already-CLOSED socket at time 0. -/
def closedAt (s : ShutSocket) : Option Nat :=
  if s.isOpen then s.ackAt
  else
    match s.ackAt with
    | some a => some a
    | none => some 0

/-- The time by which every snapshotted connection has actually closed, or
`none` if some connection never does. -/
def allClosedTime : List ShutSocket → Option Nat
  | [] => some 0
  | s :: rest =>
    match closedAt s, allClosedTime rest with
    | some a, some b => some (max a b)
    | _, _ => none

/-- What one `gracefulShutdown` run does: when the promise resolves, the
`close(code, reason)` request issued per snapshotted socket (`none` for
sockets that were not open), and which sockets the forced timer
terminates. -/
structure ShutdownOutcome where
  resolveAt : Nat
  closeRequested : List (Option (Nat × String))
  terminated : List Bool
deriving DecidableEq

/-- `gracefulShutdown(timeout)` (index.ts:393-435).  An empty snapshot
resolves immediately (index.ts:398-401).  Otherwise the promise resolves at
the earlier of "`closedCount` reaches `sockets.length`" (where CLOSING
sockets count twice, see `countTimes`) and the forced timer at `timeout`;
`close(1001, 'Server shutting down')` is requested on exactly the open
sockets (index.ts:421-428), and the forced timer terminates exactly the
sockets still open when it fires (index.ts:411-418). -/
def gracefulShutdown (sockets : List ShutSocket) (timeout : Nat) :
    ShutdownOutcome :=
  if sockets.isEmpty then ⟨0, [], []⟩
  else
    let resolveAt :=
      match threshold (shutdownCountTimes sockets) sockets.length with
      | some t => min t timeout
      | none => timeout
    ⟨resolveAt,
     sockets.map (fun s =>
       if s.isOpen then some (1001, "Server shutting down") else none),
     sockets.map (fun s =>
       s.isOpen &&
         match s.ackAt with
         | some a => timeout < a
         | none => true)⟩

/-! ## The route table (index.ts:538-558)

`allowed_routes : Map<string, GenericWebSocketEndpointController>` and
`WebSockets.continuous`.  A controller is modelled by its identifying path
and the configuration it was constructed with. -/

structure CtrlModel where
  path : String
  cfg : WSConfig
deriving DecidableEq

/-- The process-wide `allowed_routes` map. -/
abbrev RouteTable := List (String × CtrlModel)

/-- `WebSockets.continuous(route, config)` (index.ts:542-558), after the
route argument has been resolved to its path string: create a controller
for the path only when the path is unoccupied, then return whatever the
table stores for the path. -/
def continuous (routes : RouteTable) (path : String) (cfg : WSConfig) :
    RouteTable × Option CtrlModel :=
  let routes' :=
    if jsHas routes path then routes
    else jsSet routes path ⟨path, cfg⟩
  (routes', jsGet routes' path)

/-! # Theorems -/

/-! ## C1 — close status codes -/

/-- Claim C1 counterexample: the seven rejection-cause close codes are not
pairwise distinct — invalid/expired key and missing parameter both close
with 1008, and too-many-connections and rate-limited both close with 1013. -/
theorem close_codes_not_pairwise_distinct :
    ¬ List.Pairwise (fun a b => a ≠ b) rejectionCodes ∧
    WebSocketError.INVALID_KEY = WebSocketError.MISSING_PARAM ∧
    WebSocketError.TOO_MANY_CONNECTIONS = WebSocketError.RATE_LIMITED := by
  decide

/-- Claim C1 (amended): each rejection cause has a stable numeric close
code, but only four distinct values occur — too-many-connections and
rate-limited share 1013; invalid/expired key, missing parameter and auth
failure share 1008; timeout (1001) and internal error (1011) are unique and
the four group values are pairwise distinct. -/
theorem close_codes_values :
    rejectionCodes = [1013, 1008, 1008, 1008, 1001, 1013, 1011] ∧
    List.Pairwise (fun a b => a ≠ b) ([1013, 1008, 1001, 1011] : List Nat) := by
  decide

/-! ## C2 — pending keys validate at most once -/

/-- If no entry of the prefix `m` stores the token `k`, the scan passes
over `m` untouched and behaves on `m ++ l` as it does on `l`. -/
theorem validateScan_append_of_no_match (now : Nat) (k : String)
    (m l : PendingKeyMap) (h : ∀ p ∈ m, p.2.key ≠ k) :
    validateScan now k (m ++ l) =
      ((validateScan now k l).1, m ++ (validateScan now k l).2) := by
  induction m with
  | nil => simp
  | cons p m ih =>
    have hp : p.2.key ≠ k := h p (List.mem_cons_self p m)
    have hm : ∀ q ∈ m, q.2.key ≠ k := fun q hq => h q (List.mem_cons_of_mem p hq)
    cases p with
    | mk id pk =>
      have hc : ¬ (pk.key = k ∧ now ≤ pk.expiresAt) := fun hcc => hp hcc.1
      simp only [List.cons_append, validateScan, if_neg hc]
      simp [ih hm]

/-- On an absent key, `jsSet` appends. -/
theorem jsSet_of_not_has (m : List (String × α)) (k : String) (v : α)
    (h : jsHas m k = false) : jsSet m k v = m ++ [(k, v)] := by
  simp [jsSet, h]

/-- Claim C2: a key issued by `generatePendingConnectionKey` validates at
most once.  Provided the issued token `k` is nonempty and fresh (no stored
entry already carries it — guaranteed in the source by 32 random bytes) and
the generated map id is fresh: a validation at any time `t₁` up to the
expiry returns `true` and removes the stored entry; any later validation of
the same token (time `t₂` arbitrary) returns `false` on the resulting map
and leaves it unchanged; and a validation at any time `t₃` past the expiry
returns `false` and leaves the pending-key map unchanged. -/
theorem pendingKey_validate_consume_once (m₀ : PendingKeyMap)
    (id k : String) (exp : Option Nat) (now t₁ t₂ t₃ : Nat)
    (hk : k ≠ "")
    (hfresh : ∀ p ∈ m₀, p.2.key ≠ k)
    (hid : jsHas m₀ id = false)
    (h₁ : t₁ ≤ now + pendingKeyDuration exp)
    (h₃ : now + pendingKeyDuration exp < t₃) :
    validateConnectionKey t₁ k
        (generatePendingConnectionKey m₀ id k now exp) = (true, m₀) ∧
    validateConnectionKey t₂ k m₀ = (false, m₀) ∧
    validateConnectionKey t₃ k
        (generatePendingConnectionKey m₀ id k now exp) =
      (false, generatePendingConnectionKey m₀ id k now exp) := by
  have hgen : generatePendingConnectionKey m₀ id k now exp =
      m₀ ++ [(id, { key := k, createdAt := now,
                    expiresAt := now + pendingKeyDuration exp })] := by
    simp [generatePendingConnectionKey, jsSet_of_not_has _ _ _ hid]
  refine ⟨?_, ?_, ?_⟩
  · rw [hgen]
    simp only [validateConnectionKey, if_neg hk,
      validateScan_append_of_no_match t₁ k m₀ _ hfresh]
    simp [validateScan, h₁]
  · have := validateScan_append_of_no_match t₂ k m₀ [] hfresh
    simp only [List.append_nil] at this
    simp [validateConnectionKey, if_neg hk, this, validateScan]
  · rw [hgen]
    simp only [validateConnectionKey, if_neg hk,
      validateScan_append_of_no_match t₃ k m₀ _ hfresh]
    simp [validateScan,
      show ¬ (t₃ ≤ now + pendingKeyDuration exp) from by omega]

/-- Witness for C2 at a concrete instance: a key issued at time 0 with a
1000 ms expiry validates at time 900, fails to re-validate, and an
identical fresh key validated at time 1001 fails leaving the map intact. -/
theorem pendingKey_validate_consume_once_witness :
    validateConnectionKey 900 "tok"
        (generatePendingConnectionKey [] "id0" "tok" 0 (some 1000)) =
      (true, []) ∧
    validateConnectionKey 950 "tok" [] = (false, []) ∧
    validateConnectionKey 1001 "tok"
        (generatePendingConnectionKey [] "id0" "tok" 0 (some 1000)) =
      (false, generatePendingConnectionKey [] "id0" "tok" 0 (some 1000)) :=
  pendingKey_validate_consume_once [] "id0" "tok" (some 1000) 0 900 950 1001
    (by decide) (by simp) (by decide) (by decide) (by decide)

/-! ## C3 — admission check order -/

/-- Claim C3: `add` performs its checks in the fixed order rate limit,
capacity, pending-key validation, required parameters, `authHandler`; the
first failing check determines the close code and reason, no later check
influences the outcome, the socket is never registered on rejection (the
`sockets` component of the state is unchanged), and a missing-parameter
rejection names the first missing parameter of the configured list.  Each
conjunct fixes the complete result, so a rejection's outcome is independent
of everything the later checks would inspect. -/
theorem add_check_order (cfg : WSConfig) (auth : Bool) (wsRef : String)
    (req : Request) (now : Nat) (st : CtrlState) :
    ((checkRateLimit cfg.rateLimit req.clientId now st.rateLimitMap).allowed
        = false →
      add cfg auth wsRef req now st =
        (.rejected WebSocketError.RATE_LIMITED "Rate limit exceeded",
         ⟨st.sockets, st.pendingKeys,
          (checkRateLimit cfg.rateLimit req.clientId now st.rateLimitMap).map⟩)) ∧
    ((checkRateLimit cfg.rateLimit req.clientId now st.rateLimitMap).allowed
        = true →
      atCapacity cfg.limit st.sockets.length = true →
      add cfg auth wsRef req now st =
        (.rejected WebSocketError.TOO_MANY_CONNECTIONS "Too many connections",
         ⟨st.sockets, st.pendingKeys,
          (checkRateLimit cfg.rateLimit req.clientId now st.rateLimitMap).map⟩)) ∧
    ((checkRateLimit cfg.rateLimit req.clientId now st.rateLimitMap).allowed
        = true →
      atCapacity cfg.limit st.sockets.length = false →
      (keyCheckResult cfg req now st.pendingKeys).1 = false →
      add cfg auth wsRef req now st =
        (.rejected WebSocketError.INVALID_KEY
           "Invalid or expired connection key",
         ⟨st.sockets, (keyCheckResult cfg req now st.pendingKeys).2,
          (checkRateLimit cfg.rateLimit req.clientId now st.rateLimitMap).map⟩)) ∧
    (∀ p : String,
      (checkRateLimit cfg.rateLimit req.clientId now st.rateLimitMap).allowed
        = true →
      atCapacity cfg.limit st.sockets.length = false →
      (keyCheckResult cfg req now st.pendingKeys).1 = true →
      missingParam cfg req = some p →
      add cfg auth wsRef req now st =
        (.rejected WebSocketError.MISSING_PARAM
           ("Missing required parameter: " ++ p),
         ⟨st.sockets, (keyCheckResult cfg req now st.pendingKeys).2,
          (checkRateLimit cfg.rateLimit req.clientId now st.rateLimitMap).map⟩)) ∧
    ((checkRateLimit cfg.rateLimit req.clientId now st.rateLimitMap).allowed
        = true →
      atCapacity cfg.limit st.sockets.length = false →
      (keyCheckResult cfg req now st.pendingKeys).1 = true →
      missingParam cfg req = none →
      auth = false →
      add cfg auth wsRef req now st =
        (.rejected WebSocketError.AUTH_FAILED "Authentication failed",
         ⟨st.sockets, (keyCheckResult cfg req now st.pendingKeys).2,
          (checkRateLimit cfg.rateLimit req.clientId now st.rateLimitMap).map⟩)) ∧
    ((checkRateLimit cfg.rateLimit req.clientId now st.rateLimitMap).allowed
        = true →
      atCapacity cfg.limit st.sockets.length = false →
      (keyCheckResult cfg req now st.pendingKeys).1 = true →
      missingParam cfg req = none →
      auth = true →
      add cfg auth wsRef req now st =
        (.admitted,
         ⟨st.sockets ++ [wsRef], (keyCheckResult cfg req now st.pendingKeys).2,
          (checkRateLimit cfg.rateLimit req.clientId now st.rateLimitMap).map⟩)) := by
  obtain ⟨sk, pk, rm⟩ := st
  refine ⟨?_, ?_, ?_, ?_, ?_, ?_⟩
  · intro h₁
    simp [add, h₁]
  · intro h₁ h₂
    simp [add, h₁, h₂]
  · intro h₁ h₂ h₃
    simp [add, h₁, h₂, h₃]
  · intro p h₁ h₂ h₃ h₄
    simp [add, h₁, h₂, h₃, h₄]
  · intro h₁ h₂ h₃ h₄ h₅
    simp [add, h₁, h₂, h₃, h₄, h₅]
  · intro h₁ h₂ h₃ h₄ h₅
    simp [add, h₁, h₂, h₃, h₄, h₅]

/-- Witness for C3 on the missing-parameter branch: with `requiredParams =
["room", "user"]` and a query supplying only `user`, admission rejects with
code 1008 naming `room`, the first missing parameter, and registers
nothing. -/
theorem add_check_order_witness :
    add ⟨none, false, none, some ["room", "user"], none, none⟩ true "w"
        ⟨"c", [("user", "u")]⟩ 7 ⟨[], [], []⟩ =
      (.rejected 1008 "Missing required parameter: room", ⟨[], [], []⟩) := by
  have h := add_check_order ⟨none, false, none, some ["room", "user"], none,
    none⟩ true "w" ⟨"c", [("user", "u")]⟩ 7 ⟨[], [], []⟩
  exact (h.2.2.2.1 "room" (by decide) (by decide) (by decide)
    (by decide)).trans (by decide)

/-! ## C5 — rate limiter -/

/-- A request from a client with no stored entry creates a fresh window
with count 1 and is allowed, with no rate-limit event. -/
theorem checkRateLimit_fresh (max window : Nat) (cid : String) (t : Nat) :
    checkRateLimit (some ⟨max, window⟩) cid t [] =
      ⟨true, false, [(cid, ⟨1, t + window⟩)]⟩ := by
  simp [checkRateLimit, jsGet, jsSet, jsHas]

/-- A request whose stored entry's window has elapsed resets the entry to
count 1 and is allowed, whatever the previous count was. -/
theorem checkRateLimit_elapsed (max window : Nat) (cid : String)
    (c r t : Nat) (hr : r < t) :
    checkRateLimit (some ⟨max, window⟩) cid t [(cid, ⟨c, r⟩)] =
      ⟨true, false, [(cid, ⟨1, t + window⟩)]⟩ := by
  simp [checkRateLimit, jsGet, jsSet, jsHas, hr]

/-- Within a live window (every request time at most the stored
`resetTime`), a run of requests behaves like `windowResults`: the count
climbs to `max` and stays there, denials leave the map untouched. -/
theorem runRateLimit_live (max window : Nat) (cid : String) (t₁ : Nat) :
    ∀ (ts : List Nat) (k : Nat), (∀ s ∈ ts, s ≤ t₁ + window) →
    runRateLimit (some ⟨max, window⟩) cid ts
        [(cid, ⟨min k max, t₁ + window⟩)] =
      (windowResults max k ts.length,
       [(cid, ⟨min (k + ts.length) max, t₁ + window⟩)])
  | [], k, _ => by simp [runRateLimit, windowResults]
  | t :: ts, k, hts => by
    have ht : ¬ (t₁ + window < t) :=
      Nat.not_lt.mpr (hts t (List.mem_cons_self t ts))
    have hts' : ∀ s ∈ ts, s ≤ t₁ + window :=
      fun s hs => hts s (List.mem_cons_of_mem t hs)
    by_cases hk : max ≤ k
    · have hstep : checkRateLimit (some ⟨max, window⟩) cid t
          [(cid, ⟨min k max, t₁ + window⟩)] =
          ⟨false, true, [(cid, ⟨min (k + 1) max, t₁ + window⟩)]⟩ := by
        simp [checkRateLimit, jsGet, ht, show min k max = max from by omega,
          show min (k + 1) max = max from by omega]
      simp only [runRateLimit, hstep,
        runRateLimit_live max window cid t₁ ts (k + 1) hts']
      simp [windowResults, hk, show ¬ k < max from by omega,
        show k + 1 + ts.length = k + (ts.length + 1) from by omega]
    · have hstep : checkRateLimit (some ⟨max, window⟩) cid t
          [(cid, ⟨min k max, t₁ + window⟩)] =
          ⟨true, false, [(cid, ⟨min (k + 1) max, t₁ + window⟩)]⟩ := by
        simp [checkRateLimit, jsGet, jsSet, jsHas, ht,
          show ¬ max ≤ min k max from by omega,
          show min k max + 1 = min (k + 1) max from by omega]
      simp only [runRateLimit, hstep,
        runRateLimit_live max window cid t₁ ts (k + 1) hts']
      simp [windowResults, hk, show k < max from by omega,
        show k + 1 + ts.length = k + (ts.length + 1) from by omega]

/-- `windowResults` in closed form over request indices. -/
theorem windowResults_eq_map (max : Nat) :
    ∀ (n k : Nat), windowResults max k n =
      (List.range n).map
        (fun j => (decide (k + j < max), decide (max ≤ k + j)))
  | 0, _ => by simp [windowResults]
  | n + 1, k => by
    rw [List.range_succ_eq_map]
    simp only [windowResults, windowResults_eq_map max n (k + 1),
      List.map_cons, List.map_map, List.cons.injEq]
    refine ⟨by simp, ?_⟩
    apply List.map_congr_left
    intro j _
    simp only [Function.comp_apply]
    rw [show k + (j + 1) = k + 1 + j from by omega]

/-- Claim C5: under a configured rate limit `{max, window}` with
`max ≥ 1`, for one client identity: a request with no stored entry creates
a fresh entry with count 1 and is allowed; a request whose entry's window
has elapsed is allowed and resets the counter to 1 regardless of the
previous count (hence independent of how many denials occurred); and in a
run whose first request opens the window at `t₁` and whose later requests
all fall inside that window, the `n`-th request (1-based, position `j =
n - 1`) is allowed iff `n ≤ max`, a rate-limit event is emitted exactly on
denials, and the stored count ends at `min n max`. -/
theorem rateLimit_window_spec (max window : Nat) (cid : String)
    (t₁ : Nat) (ts : List Nat) (c r t t' : Nat)
    (hmax : 1 ≤ max)
    (hts : ∀ s ∈ ts, s ≤ t₁ + window)
    (hr : r < t) :
    checkRateLimit (some ⟨max, window⟩) cid t' [] =
      ⟨true, false, [(cid, ⟨1, t' + window⟩)]⟩ ∧
    checkRateLimit (some ⟨max, window⟩) cid t [(cid, ⟨c, r⟩)] =
      ⟨true, false, [(cid, ⟨1, t + window⟩)]⟩ ∧
    runRateLimit (some ⟨max, window⟩) cid (t₁ :: ts) [] =
      ((List.range (ts.length + 1)).map
         (fun j => (decide (j + 1 ≤ max), decide (max < j + 1))),
       [(cid, ⟨min (ts.length + 1) max, t₁ + window⟩)]) := by
  refine ⟨checkRateLimit_fresh max window cid t',
    checkRateLimit_elapsed max window cid c r t hr, ?_⟩
  have hrun : runRateLimit (some ⟨max, window⟩) cid (t₁ :: ts) [] =
      ((true, false) :: windowResults max 1 ts.length,
       [(cid, ⟨min (1 + ts.length) max, t₁ + window⟩)]) := by
    simp only [runRateLimit, checkRateLimit_fresh max window cid t₁]
    rw [show (⟨1, t₁ + window⟩ : RateLimitEntry) =
        ⟨min 1 max, t₁ + window⟩ from by rw [min_eq_left hmax]]
    rw [runRateLimit_live max window cid t₁ ts 1 hts]
  rw [hrun, windowResults_eq_map max ts.length 1]
  rw [List.range_succ_eq_map, List.map_cons, List.map_map, Prod.mk.injEq]
  constructor
  · rw [List.cons.injEq]
    constructor
    · rw [Prod.mk.injEq]
      refine ⟨by simp [hmax], by simp [show ¬ (max < 0 + 1) from by omega]⟩
    · apply List.map_congr_left
      intro j _
      simp only [Function.comp_apply, Prod.mk.injEq]
      constructor <;> rw [decide_eq_decide] <;> omega
  · rw [Nat.add_comm 1 ts.length]

/-- Witness for C5 with `max = 3, window = 1000`: the 4th request in the
window opened at time 0 is denied and emits the rate-limit event, the first
three are allowed, and a request at time 1001 resets the counter to 1. -/
theorem rateLimit_window_spec_witness :
    checkRateLimit (some ⟨3, 1000⟩) "c" 42 [] =
      ⟨true, false, [("c", ⟨1, 1042⟩)]⟩ ∧
    checkRateLimit (some ⟨3, 1000⟩) "c" 1001 [("c", ⟨3, 1000⟩)] =
      ⟨true, false, [("c", ⟨1, 2001⟩)]⟩ ∧
    runRateLimit (some ⟨3, 1000⟩) "c" [0, 10, 20, 30] [] =
      ((List.range 4).map
         (fun j => (decide (j + 1 ≤ 3), decide (3 < j + 1))),
       [("c", ⟨3, 1000⟩)]) := by
  have h := rateLimit_window_spec 3 1000 "c" 0 [10, 20, 30] 7 1000 1001 42
    (by decide) (by decide) (by decide)
  exact ⟨h.1, h.2.1, h.2.2⟩

/-! ## C6 — broadcast -/

/-- The broadcast loop with `j` sockets already completed invokes the
callback exactly once, on the last completion, with the accumulated errors
of the open sockets; sends are attempted exactly on the open sockets. -/
theorem broadcastLoop_spec (total : Nat) :
    ∀ (l : List BSocket) (k : Nat) (errs : List String), l ≠ [] →
    k + l.length = total →
    broadcastLoop total l k errs =
      ⟨l.map (·.isOpen), [errs ++ openErrors l]⟩
  | [], _, _, hne, _ => absurd rfl hne
  | s :: rest, k, errs, _, htot => by
    by_cases hrest : rest = []
    · subst hrest
      have hk : k + 1 = total := by simpa using htot
      cases hopen : s.isOpen <;> cases herr : s.sendErr <;>
        simp [broadcastLoop, openErrors, hk, hopen, herr]
    · have hk : ¬ (k + 1 = total) := by
        have : 1 ≤ rest.length := List.length_pos.mpr hrest
        simp only [List.length_cons] at htot
        omega
      have htot' : (k + 1) + rest.length = total := by
        simp only [List.length_cons] at htot
        omega
      have ih := fun e => broadcastLoop_spec total rest (k + 1) e hrest htot'
      cases hopen : s.isOpen <;> cases herr : s.sendErr <;>
        simp [broadcastLoop, openErrors, hk, hopen, herr, ih]

/-- Attempts (the open sockets) plus skips (the non-open ones) partition
the selected sockets. -/
theorem count_open_add_closed (l : List BSocket) :
    (l.map (·.isOpen)).count true + l.countP (fun s => !s.isOpen) =
      l.length := by
  induction l with
  | nil => simp
  | cons s rest ih =>
    cases hopen : s.isOpen <;>
      simp [List.count_cons, List.countP_cons, hopen] <;> omega

/-- Claim C6: `broadcast` over the selected sockets attempts the send
exactly on the open ones; the completion callback is invoked exactly once,
with the failure list containing exactly the genuine send errors of the
open sockets (skipped non-open sockets contribute nothing); with zero
selected sockets the callback is invoked immediately with an empty list;
and the number of attempts plus the number of non-open sockets is the
number of selected sockets. -/
theorem broadcast_spec (sockets : List BSocket) :
    broadcast sockets = ⟨sockets.map (·.isOpen), [openErrors sockets]⟩ ∧
    (broadcast sockets).attempted.count true +
      sockets.countP (fun s => !s.isOpen) = sockets.length := by
  have h : broadcast sockets =
      ⟨sockets.map (·.isOpen), [openErrors sockets]⟩ := by
    cases hs : sockets with
    | nil => simp [broadcast, openErrors]
    | cons s rest =>
      have hne : s :: rest ≠ [] := by simp
      simp only [broadcast, List.length_cons]
      rw [if_neg (by simp)]
      simpa using broadcastLoop_spec (s :: rest).length (s :: rest) 0 []
        hne (by simp)
  refine ⟨h, ?_⟩
  rw [h]
  exact count_open_add_closed sockets

/-! ## C7 — at most one pending idle timer per connection -/

/-- The shape invariant of a socket's timer state: either nothing is
pending, or exactly the timer recorded in `ws.timeoutTimer` is pending. -/
def timerInv (st : TimerState) : Prop :=
  st.pending = [] ∨ ∃ t, st.current = some t ∧ st.pending = [t]

/-- Every timer event preserves the invariant: scheduling always cancels
the recorded timer first, firing and closing only remove. -/
theorem timerInv_step (hasTimeout : Bool) (op : TimerOp) (st : TimerState)
    (h : timerInv st) : timerInv (stepTimer hasTimeout op st) := by
  obtain ⟨pending, current, next⟩ := st
  cases op with
  | setup =>
    cases hasTimeout with
    | false => exact h
    | true =>
      cases h with
      | inl h0 =>
        cases hcur : current with
        | none =>
          subst h0
          exact Or.inr ⟨next, rfl, by simp [stepTimer, setupSocketTimeout]⟩
        | some t =>
          subst h0
          exact Or.inr ⟨next, rfl, by simp [stepTimer, setupSocketTimeout]⟩
      | inr h1 =>
        obtain ⟨t, hc, hp⟩ := h1
        simp only at hc hp
        subst hc
        subst hp
        exact Or.inr ⟨next, rfl, by simp [stepTimer, setupSocketTimeout]⟩
  | fire =>
    cases hcur : current with
    | none => simpa [stepTimer, hcur] using h
    | some t =>
      cases h with
      | inl h0 =>
        simp only at h0
        subst h0
        exact Or.inl (by simp [stepTimer, hcur])
      | inr h1 =>
        obtain ⟨t', hc, hp⟩ := h1
        simp only at hc hp
        subst hp
        simp only [hcur, Option.some.injEq] at hc
        subst hc
        exact Or.inl (by simp [stepTimer, hcur])
  | close =>
    cases hcur : current with
    | none => simpa [stepTimer, hcur] using h
    | some t =>
      cases h with
      | inl h0 =>
        simp only at h0
        subst h0
        exact Or.inl (by simp [stepTimer, hcur])
      | inr h1 =>
        obtain ⟨t', hc, hp⟩ := h1
        simp only at hc hp
        subst hp
        simp only [hcur, Option.some.injEq] at hc
        subst hc
        exact Or.inl (by simp [stepTimer, hcur])

/-- The invariant is preserved by any sequence of timer events. -/
theorem timerInv_run (hasTimeout : Bool) :
    ∀ (ops : List TimerOp) (st : TimerState), timerInv st →
    timerInv (runTimer hasTimeout ops st)
  | [], _, h => h
  | op :: ops, st, h =>
    timerInv_run hasTimeout ops _ (timerInv_step hasTimeout op st h)

/-- Claim C7: starting from a freshly admitted socket, after any sequence
of timer events — (re)arming on admission, activity signals or explicit
`resetTimeout`, timer firings, and the close handler's cancellation — at
most one idle-timeout timer is pending for the connection: rearming cancels
the recorded timer before scheduling, so timers never stack. -/
theorem timer_never_stacks (hasTimeout : Bool) (ops : List TimerOp) :
    (runTimer hasTimeout ops initTimerState).pending.length ≤ 1 := by
  have h := timerInv_run hasTimeout ops initTimerState (Or.inl rfl)
  cases h with
  | inl h0 => simp [h0]
  | inr h1 =>
    obtain ⟨t, _, hp⟩ := h1
    simp [hp]

/-! ## C4 — graceful shutdown -/

/-- Every element of a list of times is at most its `listMax`. -/
theorem le_listMax : ∀ (l : List Nat), ∀ x ∈ l, x ≤ listMax l
  | a :: rest, x, h => by
    cases h with
    | head => exact le_max_left a (listMax rest)
    | tail _ hx =>
      exact (le_listMax rest x hx).trans (le_max_right a (listMax rest))

/-- `listMax` of a nonempty list is one of its elements. -/
theorem listMax_mem : ∀ (l : List Nat), l ≠ [] → listMax l ∈ l
  | [a], _ => by simp [listMax]
  | a :: b :: rest, _ => by
    rcases le_total a (listMax (b :: rest)) with hab | hab
    · have : listMax (a :: b :: rest) = listMax (b :: rest) :=
        max_eq_right hab
      rw [this]
      exact List.mem_cons_of_mem a (listMax_mem (b :: rest) (by simp))
    · have : listMax (a :: b :: rest) = a := max_eq_left hab
      rw [this]
      exact List.mem_cons_self a (b :: rest)

/-- One-step unfolding of `listMin`. -/
theorem listMin_cons (a : Nat) (l : List Nat) :
    listMin (a :: l) =
      match listMin l with
      | none => some a
      | some b => some (min a b) := rfl

/-- `listMin` of a nonempty constant list is that constant. -/
theorem listMin_const (c : Nat) : ∀ (l : List Nat), l ≠ [] →
    (∀ x ∈ l, x = c) → listMin l = some c
  | [a], _, hc => by simp [listMin, hc a (by simp)]
  | a :: b :: rest, _, hc => by
    have ha : a = c := hc a (by simp)
    have hrest := listMin_const c (b :: rest) (by simp)
      (fun x hx => hc x (List.mem_cons_of_mem a hx))
    rw [listMin_cons, hrest, ha]
    simp
  | [], h, _ => absurd rfl h

/-- When the counting events number exactly `n`, `closedCount` reaches `n`
exactly when the last of them fires. -/
theorem threshold_eq_listMax (l : List Nat) (h : l ≠ []) :
    threshold l l.length = some (listMax l) := by
  have hall : ∀ x ∈ l, x ≤ listMax l := le_listMax l
  have hcnt : l.countP (fun a => a ≤ listMax l) = l.length :=
    List.countP_eq_length.mpr (fun a ha => by
      simpa using hall a ha)
  apply listMin_const
  · intro hnil
    have hm : listMax l ∈ l.filter
        (fun t => l.length ≤ l.countP (fun a => a ≤ t)) := by
      rw [List.mem_filter]
      exact ⟨listMax_mem l h, by simp [hcnt]⟩
    rw [hnil] at hm
    exact absurd hm (List.not_mem_nil _)
  · intro x hx
    rw [List.mem_filter] at hx
    obtain ⟨hxl, hcond⟩ := hx
    have hge : l.length ≤ l.countP (fun a => a ≤ x) := by simpa using hcond
    have hle : l.countP (fun a => a ≤ x) ≤ l.length := List.countP_le_length _
    have hallx : ∀ a ∈ l, a ≤ x := by
      have := List.countP_eq_length.mp (Nat.le_antisymm hle hge)
      intro a ha
      simpa using this a ha
    exact Nat.le_antisymm (hall x hxl) (hallx (listMax l) (listMax_mem l h))

/-- With fewer counting events than sockets, `closedCount` never reaches
the snapshot size. -/
theorem threshold_none_of_short (l : List Nat) (n : Nat)
    (h : l.length < n) : threshold l n = none := by
  have hf : l.filter (fun t => n ≤ l.countP (fun a => a ≤ t)) = [] := by
    rw [List.filter_eq_nil_iff]
    intro a _
    have := List.countP_le_length (l := l) (fun a' => decide (a' ≤ a))
    simp only [decide_eq_true_eq, not_le]
    omega
  rw [threshold, hf]
  rfl

/-- A snapshot with no mid-close socket (every non-open socket's `close`
event already fired) contributes exactly the `closedAt` instants as
counting events. -/
theorem countTimes_of_no_closing (s : ShutSocket)
    (h : s.isOpen = false → s.ackAt = none) :
    countTimes s = (closedAt s).toList := by
  obtain ⟨o, ack⟩ := s
  cases o with
  | true => cases ack <;> simp [countTimes, closedAt]
  | false =>
    have ha : ack = none := h rfl
    subst ha
    simp [countTimes, closedAt]

/-- Without mid-close sockets, each socket counts at most once. -/
theorem shutdownCountTimes_le_length :
    ∀ (sockets : List ShutSocket),
    (∀ s ∈ sockets, s.isOpen = false → s.ackAt = none) →
    (shutdownCountTimes sockets).length ≤ sockets.length
  | [], _ => le_refl 0
  | s :: rest, h => by
    have hs := countTimes_of_no_closing s (h s (List.mem_cons_self s rest))
    have ih := shutdownCountTimes_le_length rest
      (fun q hq => h q (List.mem_cons_of_mem s hq))
    cases hca : closedAt s <;>
      simp [shutdownCountTimes, hs, hca] <;> omega

/-- Without mid-close sockets, if every snapshotted connection closes by
`t` then the counting events are one per socket and the last fires at
`t`. -/
theorem shutdownCountTimes_of_all_closed :
    ∀ (sockets : List ShutSocket),
    (∀ s ∈ sockets, s.isOpen = false → s.ackAt = none) →
    ∀ t, allClosedTime sockets = some t →
    (shutdownCountTimes sockets).length = sockets.length ∧
    listMax (shutdownCountTimes sockets) = t
  | [], _, t, ht => by
    simp only [allClosedTime, Option.some.injEq] at ht
    subst ht
    exact ⟨rfl, rfl⟩
  | s :: rest, h, t, ht => by
    have hs := countTimes_of_no_closing s (h s (List.mem_cons_self s rest))
    have hrest : ∀ q ∈ rest, q.isOpen = false → q.ackAt = none :=
      fun q hq => h q (List.mem_cons_of_mem s hq)
    cases hca : closedAt s with
    | none => simp [allClosedTime, hca] at ht
    | some a =>
      cases hcr : allClosedTime rest with
      | none => simp [allClosedTime, hca, hcr] at ht
      | some b =>
        have hab : t = max a b := by
          simp only [allClosedTime, hca, hcr, Option.some.injEq] at ht
          omega
        obtain ⟨ihlen, ihmax⟩ :=
          shutdownCountTimes_of_all_closed rest hrest b hcr
        subst hab
        constructor
        · simp [shutdownCountTimes, hs, hca, ihlen]
        · simp only [shutdownCountTimes, hs, hca, Option.toList,
            List.singleton_append]
          show max a (listMax (shutdownCountTimes rest)) = max a b
          rw [ihmax]

/-- Without mid-close sockets, if some snapshotted connection never closes
then the counting events fall short of the snapshot size. -/
theorem shutdownCountTimes_of_never_closed :
    ∀ (sockets : List ShutSocket),
    (∀ s ∈ sockets, s.isOpen = false → s.ackAt = none) →
    allClosedTime sockets = none →
    (shutdownCountTimes sockets).length < sockets.length
  | [], _, hn => by simp [allClosedTime] at hn
  | s :: rest, h, hn => by
    have hs := countTimes_of_no_closing s (h s (List.mem_cons_self s rest))
    have hrest : ∀ q ∈ rest, q.isOpen = false → q.ackAt = none :=
      fun q hq => h q (List.mem_cons_of_mem s hq)
    cases hca : closedAt s with
    | none =>
      have hle := shutdownCountTimes_le_length rest hrest
      simp only [shutdownCountTimes, hs, hca, Option.toList,
        List.nil_append, List.length_cons]
      omega
    | some a =>
      have hcr : allClosedTime rest = none := by
        cases hcr : allClosedTime rest with
        | none => rfl
        | some b => simp [allClosedTime, hca, hcr] at hn
      have ih := shutdownCountTimes_of_never_closed rest hrest hcr
      simp only [shutdownCountTimes, hs, hca, Option.toList,
        List.singleton_append, List.length_cons]
      omega

/-- Claim C4 counterexample: `gracefulShutdown` does not wait for every
snapshotted connection to close.  Snapshot an open socket acknowledging the
going-away close at time 5 together with a mid-close socket whose `close`
event fires at time 2, with `T = 10`: the mid-close socket is counted both
synchronously and at its close event, so `closedCount` reaches 2 at time 2
and the promise resolves at 2 — although the last snapshotted connection
only closes at time 5. -/
theorem gracefulShutdown_resolves_before_all_closed :
    (gracefulShutdown [⟨true, some 5⟩, ⟨false, some 2⟩] 10).resolveAt = 2 ∧
    allClosedTime [⟨true, some 5⟩, ⟨false, some 2⟩] = some 5 ∧
    (2 : Nat) < 5 := by
  decide

/-- Claim C4 (amended): `gracefulShutdown(T)` always resolves: with zero
connections it resolves immediately; otherwise it requests a close with
the going-away code 1001 on every open connection, resolves no later than
`T`, and any connection still open when `T` elapses is forcibly
terminated.  Resolution happens when the internal closed count reaches the
snapshot size — but a connection already mid-close at snapshot time is
counted twice (once synchronously as non-open, once when its `close` event
fires), so resolution can precede the close of every snapshotted
connection; when no snapshotted connection is mid-close, the promise does
resolve exactly when every snapshotted connection has closed, or at `T` if
some never does. -/
theorem gracefulShutdown_bounded (sockets : List ShutSocket) (T : Nat) :
    gracefulShutdown [] T = ⟨0, [], []⟩ ∧
    (gracefulShutdown sockets T).resolveAt ≤ T ∧
    (gracefulShutdown sockets T).closeRequested =
      sockets.map (fun s =>
        if s.isOpen then some (1001, "Server shutting down") else none) ∧
    (gracefulShutdown sockets T).terminated =
      sockets.map (fun s =>
        s.isOpen &&
          match s.ackAt with
          | some a => decide (T < a)
          | none => true) ∧
    ((∀ s ∈ sockets, s.isOpen = false → s.ackAt = none) →
      (∀ t, allClosedTime sockets = some t → t ≤ T →
        (gracefulShutdown sockets T).resolveAt = t) ∧
      (allClosedTime sockets = none →
        (gracefulShutdown sockets T).resolveAt = T)) := by
  by_cases hs : sockets.isEmpty
  · have he : sockets = [] := List.isEmpty_iff.mp hs
    subst he
    refine ⟨rfl, by simp [gracefulShutdown], by simp [gracefulShutdown],
      by simp [gracefulShutdown], fun _ => ⟨?_, ?_⟩⟩
    · intro t ht _
      simp only [allClosedTime, Option.some.injEq] at ht
      simp [gracefulShutdown, ht]
    · intro ht
      simp [allClosedTime] at ht
  · have hne : sockets ≠ [] := fun he => hs (by simp [he])
    refine ⟨rfl, ?_, by simp [gracefulShutdown, hs],
      by simp [gracefulShutdown, hs], fun h => ⟨?_, ?_⟩⟩
    · cases hth : threshold (shutdownCountTimes sockets) sockets.length with
      | none => simp [gracefulShutdown, hs, hth]
      | some t => simp [gracefulShutdown, hs, hth, min_le_right]
    · intro t hct htT
      obtain ⟨hlen, hmax⟩ :=
        shutdownCountTimes_of_all_closed sockets h t hct
      have htne : shutdownCountTimes sockets ≠ [] := by
        intro hnil
        rw [hnil] at hlen
        exact hne (List.length_eq_zero.mp hlen.symm)
      have hth := threshold_eq_listMax _ htne
      rw [hlen, hmax] at hth
      simp [gracefulShutdown, hs, hth, min_eq_left htT]
    · intro hn
      have hlt := shutdownCountTimes_of_never_closed sockets h hn
      have hth := threshold_none_of_short _ _ hlt
      simp [gracefulShutdown, hs, hth]

/-- Witness for C4's amended theorem: an open socket acknowledging at time
3 plus an already-closed socket (no mid-close socket in the snapshot),
under `T = 10`: the shutdown resolves at 3 — exactly when every
snapshotted connection has closed — requests the going-away close only on
the open socket, and terminates nothing. -/
theorem gracefulShutdown_bounded_witness :
    (gracefulShutdown [⟨true, some 3⟩, ⟨false, none⟩] 10).resolveAt = 3 ∧
    (gracefulShutdown [⟨true, some 3⟩, ⟨false, none⟩] 10).closeRequested =
      [some (1001, "Server shutting down"), none] ∧
    (gracefulShutdown [⟨true, some 3⟩, ⟨false, none⟩] 10).terminated =
      [false, false] := by
  have h := gracefulShutdown_bounded [⟨true, some 3⟩, ⟨false, none⟩] 10
  exact ⟨(h.2.2.2.2 (by decide)).1 3 (by decide) (by decide),
    (h.2.2.1).trans (by decide), (h.2.2.2.1).trans (by decide)⟩

/-! ## C8 — which operations remove registered connections -/

/-- Claim C8 counterexample: `destroy()` clears the `sockets` map directly
(index.ts:476), decreasing the live count without being the close handler
— and `terminate()` without a ref does the same (index.ts:452).  So the
close-removal handler is not the only operation that removes entries. -/
theorem destroy_clears_sockets :
    (socketsEffect CtrlOp.destroy ["a"]).length <
      (["a"] : List String).length ∧
    (socketsEffect CtrlOp.terminateAll ["a"]).length <
      (["a"] : List String).length ∧
    (∀ r c s, CtrlOp.destroy ≠ CtrlOp.closeHandler r c s) ∧
    (∀ r c s, CtrlOp.terminateAll ≠ CtrlOp.closeHandler r c s) := by
  refine ⟨by simp [socketsEffect], by simp [socketsEffect], ?_, ?_⟩ <;>
    intro r c s h <;> exact CtrlOp.noConfusion h

/-- Claim C8 (amended): the close handler is the only operation that
removes individual connections — every operation that shrinks the `sockets`
map is the close handler or one of the two whole-controller teardowns
(`terminate()` with no ref, `destroy()`), which clear the map wholesale;
the close handler removes exactly the closing ref's entry and emits the
disconnect event carrying the observed code and reason; and `send`,
`broadcast`, `resetTimeout`, `getConnectionsInfo`, `gracefulShutdown` and
per-ref `terminate` never remove entries. -/
theorem sockets_removal_paths (op : CtrlOp) (m : List String) :
    ((socketsEffect op m).length < m.length →
      (∃ r c s, op = CtrlOp.closeHandler r c s) ∨
        op = CtrlOp.terminateAll ∨ op = CtrlOp.destroy) ∧
    (∀ r c s, socketsEffect (CtrlOp.closeHandler r c s) m =
        m.filter (fun x => x != r) ∧
      disconnectEvent (CtrlOp.closeHandler r c s) = some (r, c, s)) ∧
    (∀ r, socketsEffect (CtrlOp.send r) m = m) ∧
    socketsEffect CtrlOp.broadcast m = m ∧
    (∀ r, socketsEffect (CtrlOp.resetTimeout r) m = m) ∧
    socketsEffect CtrlOp.getConnectionsInfo m = m ∧
    socketsEffect CtrlOp.gracefulShutdown m = m ∧
    (∀ r, socketsEffect (CtrlOp.terminateOne r) m = m) := by
  refine ⟨?_, fun r c s => ⟨rfl, rfl⟩, fun r => rfl, rfl, fun r => rfl,
    rfl, rfl, fun r => rfl⟩
  intro hlt
  cases op with
  | add r => simp [socketsEffect] at hlt
  | closeHandler r c s => exact Or.inl ⟨r, c, s, rfl⟩
  | send r => simp [socketsEffect] at hlt
  | broadcast => simp [socketsEffect] at hlt
  | resetTimeout r => simp [socketsEffect] at hlt
  | getConnectionsInfo => simp [socketsEffect] at hlt
  | gracefulShutdown => simp [socketsEffect] at hlt
  | terminateOne r => simp [socketsEffect] at hlt
  | terminateAll => exact Or.inr (Or.inl rfl)
  | destroy => exact Or.inr (Or.inr rfl)

/-- Witness for C8's amended theorem: the close handler for ref `"a"`
shrinks a one-entry registry, and the theorem accounts for it. -/
theorem sockets_removal_paths_witness :
    (∃ r c s, CtrlOp.closeHandler "a" 1000 "bye" =
      CtrlOp.closeHandler r c s) ∨
    CtrlOp.closeHandler "a" 1000 "bye" = CtrlOp.terminateAll ∨
    CtrlOp.closeHandler "a" 1000 "bye" = CtrlOp.destroy :=
  (sockets_removal_paths (CtrlOp.closeHandler "a" 1000 "bye") ["a"]).1
    (by simp [socketsEffect])

/-! ## C9 — `continuous` is idempotent by path -/

/-- Appending a binding for an absent key makes lookup find it. -/
theorem jsGet_append_single (m : List (String × α)) (k : String) (v : α)
    (h : jsHas m k = false) : jsGet (m ++ [(k, v)]) k = some v := by
  have h' : m.find? (fun p => p.1 == k) = none := by
    cases hf : m.find? (fun p => p.1 == k) with
    | none => rfl
    | some p =>
      rw [jsHas, hf] at h
      simp at h
  simp [jsGet, List.find?_append, h']

/-- Appending a binding for a key makes `jsHas` true. -/
theorem jsHas_append_single (m : List (String × α)) (k : String) (v : α) :
    jsHas (m ++ [(k, v)]) k = true := by
  cases h : (m.find? (fun p => p.1 == k)) with
  | none => simp [jsHas, List.find?_append, h]
  | some p => simp [jsHas, List.find?_append, h]

/-- Claim C9: registration of a continuous controller is idempotent by
path.  On an unoccupied path the first call appends a controller built from
the supplied configuration and returns it; any subsequent call for the same
path — whatever configuration it passes — leaves the route table unchanged
and returns the controller already stored. -/
theorem continuous_idempotent (routes : RouteTable) (path : String)
    (cfg₁ cfg₂ : WSConfig) (h : jsHas routes path = false) :
    continuous routes path cfg₁ =
      (routes ++ [(path, ⟨path, cfg₁⟩)], some ⟨path, cfg₁⟩) ∧
    continuous (routes ++ [(path, ⟨path, cfg₁⟩)]) path cfg₂ =
      (routes ++ [(path, ⟨path, cfg₁⟩)], some ⟨path, cfg₁⟩) := by
  constructor
  · simp only [continuous, h, Bool.false_eq_true, if_false,
      jsSet_of_not_has routes path _ h]
    rw [jsGet_append_single routes path _ h]
  · simp only [continuous, jsHas_append_single routes path _, if_true]
    rw [jsGet_append_single routes path _ h]

/-- Witness for C9 on an empty route table and path `/chat`: the first
registration stores and returns the controller with the first
configuration, the second returns it untouched (the second configuration,
here differing in `useConnectionKeys`, is ignored). -/
theorem continuous_idempotent_witness :
    continuous [] "/chat" ⟨none, true, none, none, none, none⟩ =
      ([("/chat", ⟨"/chat", ⟨none, true, none, none, none, none⟩⟩)],
       some ⟨"/chat", ⟨none, true, none, none, none, none⟩⟩) ∧
    continuous [("/chat", ⟨"/chat", ⟨none, true, none, none, none, none⟩⟩)]
        "/chat" ⟨none, false, none, none, none, none⟩ =
      ([("/chat", ⟨"/chat", ⟨none, true, none, none, none, none⟩⟩)],
       some ⟨"/chat", ⟨none, true, none, none, none, none⟩⟩) := by
  have h := continuous_idempotent [] "/chat"
    ⟨none, true, none, none, none, none⟩
    ⟨none, false, none, none, none, none⟩ (by decide)
  exact ⟨h.1, h.2⟩

/-! ## C10 — `terminate` throws on unknown refs, `send` never throws -/

/-- Claim C10: the two per-identity operations disagree on unknown
identities: `terminate(ref)` with a ref absent from the connection map
throws an `Error` synchronously, while `send(ref, ...)` with the same
unknown ref returns `false` and reports the error through the callback;
`send` also returns `false` (never throwing) for a registered socket that
is not open, and for a transport send that throws synchronously — whose
exception the `try`/`catch` converts into a callback error; a known ref
never makes `terminate` throw, and an open non-throwing socket makes `send`
return `true`. -/
theorem terminate_throws_send_returns (m : List (String × SendSocket))
    (ref : String) :
    (jsGet m ref = none →
      terminateRef m ref = Except.error ("Socket not found: " ++ ref) ∧
      send m ref = (false, some ("Socket not found: " ++ ref))) ∧
    (∀ s, jsGet m ref = some s → terminateRef m ref = Except.ok ()) ∧
    (∀ s, jsGet m ref = some s → s.readyState ≠ WebSocket_OPEN →
      send m ref = (false, some ("Socket not ready: " ++
        toString s.readyState))) ∧
    (∀ s e, jsGet m ref = some s → s.readyState = WebSocket_OPEN →
      s.sendThrows = some e → send m ref = (false, some e)) ∧
    (∀ s, jsGet m ref = some s → s.readyState = WebSocket_OPEN →
      s.sendThrows = none → send m ref = (true, none)) := by
  refine ⟨?_, ?_, ?_, ?_, ?_⟩
  · intro h
    exact ⟨by simp [terminateRef, h], by simp [send, h]⟩
  · intro s h
    simp [terminateRef, h]
  · intro s h hrs
    simp [send, h, bne_iff_ne, hrs]
  · intro s e h hrs hthrow
    simp [send, h, hrs, hthrow, WebSocket_OPEN]
  · intro s h hrs hthrow
    simp [send, h, hrs, hthrow, WebSocket_OPEN]

/-- Witness for C10 on a one-socket map and the unknown ref `"x"`:
`terminate` throws, `send` reports through the callback and returns
`false`; on the known non-open ref `"a"`, `terminate` succeeds while `send`
returns `false` with a not-ready error. -/
theorem terminate_throws_send_returns_witness :
    terminateRef [("a", ⟨3, none⟩)] "x" =
      Except.error ("Socket not found: " ++ "x") ∧
    send [("a", ⟨3, none⟩)] "x" =
      (false, some ("Socket not found: " ++ "x")) ∧
    terminateRef [("a", ⟨3, none⟩)] "a" = Except.ok () ∧
    send [("a", ⟨3, none⟩)] "a" =
      (false, some ("Socket not ready: " ++ toString 3)) := by
  have h := terminate_throws_send_returns [("a", ⟨3, none⟩)] "x"
  have h' := terminate_throws_send_returns [("a", ⟨3, none⟩)] "a"
  have h₁ := h.1 (by decide)
  exact ⟨h₁.1, h₁.2, h'.2.1 ⟨3, none⟩ (by decide),
    h'.2.2.1 ⟨3, none⟩ (by decide) (by decide)⟩

end SvelteKitWS
